import Mathlib

/-!
The shared-mode build driver of go-dynlib (`main.go`).

A shallow embedding of `main.go`: the package catalog `pkgOrder`, the driver
`main`, the two task constructors `compilestd` and `trycompile`, and the task
runner `runinstall`.

The external world is explicit:

* the process started by `exec.CommandContext(...).CombinedOutput()` is an
  oracle `Config.exec`, which answers the k-th launch of a run with a
  `ProcResult` (captured output, how the process ended, how long it took);
* the wall clock is a natural number of nanoseconds threaded through the
  run state, so that `context.WithTimeout` can compute an absolute deadline;
* the log sink and the process launches are recorded, in order, in a trace
  of `Event`s.
-/

namespace DynLib

/-! ## package `time` -/

/-- One millisecond, in nanoseconds (`time.Millisecond`). -/
def Millisecond : Nat := 1000000

/-- One second, in nanoseconds (`time.Second`). -/
def Second : Nat := 1000 * Millisecond

/-- One minute, in nanoseconds (`time.Minute`). -/
def Minute : Nat := 60 * Second

/-! ## package `path/filepath` (Unix) -/

/-- Split a path at every separator `/`. -/
def splitSep : List Char → List (List Char)
  | [] => [[]]
  | c :: cs =>
    if c = '/' then [] :: splitSep cs
    else match splitSep cs with
      | [] => [[c]]
      | seg :: segs => (c :: seg) :: segs

/-- One round of the loop of `filepath.Clean`, on the stack of the elements
written so far (topmost first): empty and `.` elements are dropped, `..`
removes the element before it when that is a real element, is dropped at the
root, and is kept otherwise; any other element is written. -/
def cleanStep (rooted : Bool) (stack : List (List Char)) (seg : List Char) :
    List (List Char) :=
  if seg = [] ∨ seg = ['.'] then stack
  else if seg = ['.', '.'] then
    match stack with
    | top :: rest => if top = ['.', '.'] then seg :: stack else rest
    | [] => if rooted then [] else [seg]
  else seg :: stack

/-- Elements joined by the separator (`strings.Join(elems, "/")`). -/
def joinSep : List (List Char) → List Char
  | [] => []
  | [s] => s
  | s :: t :: rest => s ++ '/' :: joinSep (t :: rest)

/-- The function `filepath.Clean` on the characters of a path. -/
def cleanChars (path : List Char) : List Char :=
  match path with
  | [] => ['.']
  | c :: _ =>
    let rooted := decide (c = '/')
    let body := joinSep ((splitSep path).foldl (cleanStep rooted) []).reverse
    if rooted then '/' :: body
    else if body = [] then ['.'] else body

/-- The function `filepath.Clean`. -/
def Clean (path : String) : String := String.mk (cleanChars path.data)

/-- The function `filepath.Join`: the elements from the first non-empty one on
are joined by the separator and cleaned; the result is empty when every
element is empty. -/
def Join : List String → String
  | [] => ""
  | e :: es =>
    if e ≠ "" then Clean (String.mk (joinSep ((e :: es).map String.data)))
    else Join es

/-- A path all of whose elements are real: none is empty, `.` or `..`. -/
def plain (p : String) : Bool :=
  (splitSep p.data).all fun seg => decide (seg ≠ [] ∧ seg ≠ ['.'] ∧ seg ≠ ['.', '.'])

/-- The elements `Clean` has written after reading a path, first one first. -/
def cleanStack (rooted : Bool) (path : List Char) : List (List Char) :=
  ((splitSep path).foldl (cleanStep rooted) []).reverse

/-! ## packages `context` and `os/exec` -/

/-- A context made by `context.WithTimeout(context.Background(), d)`: all that
matters of it is the instant at which it expires. -/
structure Context where
  deadline : Nat
  deriving DecidableEq

/-- The call `context.WithTimeout(context.Background(), d)` made at instant
`now`. -/
def WithTimeout (now d : Nat) : Context := ⟨now + d⟩

/-- The value `exec.Cmd` as `runinstall` sets it up. -/
structure Cmd where
  ctx : Context
  name : String
  args : List String
  dir : String
  env : List String
  deriving DecidableEq

/-- How the external process ended. -/
inductive ProcStatus
  /-- it ran and exited with this status -/
  | exited (code : Nat)
  /-- it could not be started -/
  | startFailed (msg : String)
  /-- it was killed because the context expired -/
  | cancelled
  deriving DecidableEq

/-- The non-nil errors `CombinedOutput` returns. -/
inductive ExecError
  /-- the process exited with a non-zero status -/
  | exitError (code : Nat)
  /-- the process could not be started -/
  | startError (msg : String)
  /-- the process was killed at the deadline -/
  | killed
  deriving DecidableEq

/-- What the world answers to one launch: the combined standard output and
standard error, how the process ended, and the time that passed. -/
structure ProcResult where
  out : String
  status : ProcStatus
  elapsed : Nat
  deriving DecidableEq

/-- The pair `(out, err)` returned by `command.CombinedOutput()`: the error is
nil exactly when the process ran and exited with status zero. -/
def CombinedOutput (r : ProcResult) : String × Option ExecError :=
  match r.status with
  | .exited 0 => (r.out, none)
  | .exited (c + 1) => (r.out, some (.exitError (c + 1)))
  | .startFailed m => (r.out, some (.startError m))
  | .cancelled => (r.out, some .killed)

/-! ## the run: configuration, events, state -/

/-- What a run is given from outside: the value of the flag `-ldflags`, the
value of the environment variable `GOROOT`, and the world's answer to the
k-th process launch. -/
structure Config where
  ldflags : String
  goroot : String
  exec : Nat → Cmd → ProcResult

/-- What a run does, in order. -/
inductive Event
  /-- The call `log.Println("Building libstd.so")` -/
  | buildingStd
  /-- The call `log.Fatalln("Failed to compile the golang standard library libstd.so:", err)` -/
  | fatalStd (err : ExecError)
  /-- The call `log.Println("Successfully built libstd.so")` -/
  | builtStd
  /-- The call `log.Println("Building package:", pkg)` -/
  | buildingPkg (pkg : String)
  /-- The call `log.Println("Error building package:", err)` -/
  | errorPkg (err : ExecError)
  /-- The call `log.Println("Successfully Built:", pkg)` -/
  | builtPkg (pkg : String)
  /-- The call `log.Println(string(out))` in `runinstall` -/
  | output (out : String)
  /-- The call `command.CombinedOutput()`: the process launched at instant `start`, and
  what came back -/
  | invoke (start : Nat) (cmd : Cmd) (res : ProcResult)
  /-- The call `time.Sleep(d)` -/
  | sleep (d : Nat)
  deriving DecidableEq

/-- The state of a run: the clock, the number of processes launched so far,
and the events so far. -/
structure State where
  now : Nat
  spawned : Nat
  trace : List Event

/-- Append one event. -/
def State.emit (s : State) (e : Event) : State :=
  { s with trace := s.trace ++ [e] }

/-- The call `time.Sleep(d)`. -/
def State.sleep (s : State) (d : Nat) : State :=
  { s with now := s.now + d, trace := s.trace ++ [Event.sleep d] }

/-- A finished run: its events and the exit status of the process. -/
structure Run where
  trace : List Event
  exit : Nat

/-! ## `main.go` -/

/-- The catalog `pkgOrder`. -/
def pkgOrder : List String := [
  -- L0 Packages
  "unsafe",
  "runtime/internal/sys",
  "runtime/internal/atomic",
  "runtime",
  "sync/atomic",
  "internal/race",
  "sync",
  "errors",
  "io",
  -- L1 Packages
  "unicode/utf8",
  "unicode/utf16",
  "sort",
  "math",
  "math/cmplx",
  "math/rand",
  "strconv",
  -- L2 Packages
  "unicode",
  "strings",
  "bytes",
  "path",
  "bufio",
  -- L3 Packages
  "crypto/subtle",
  "reflect",
  "encoding/base32",
  "encoding/base64",
  "encoding/binary",
  "hash",
  "hash/adler32",
  "hash/crc32",
  "hash/crc64",
  "hash/fnv",
  "crypto",
  "crypto/cipher",
  "image/color",
  "image",
  "image/color/palette",
  -- Operating system access
  "internal/syscall/windows/sysdll",
  "syscall",
  "internal/syscall/unix",
  "time",
  "os",
  "path/filepath",
  "io/ioutil",
  "os/signal",
  "fmt",
  "log",
  "context",
  "os/exec",
  -- Low level testing dependencies
  "regexp/syntax",
  "regexp",
  "text/tabwriter",
  "runtime/debug",
  "runtime/pprof",
  "runtime/trace",
  "flag",
  "testing",
  "testing/iotest",
  "testing/quick",
  "internal/testenv",
  -- Go parser
  "go/token",
  "go/scanner",
  "go/ast",
  "go/parser",
  "go/printer",
  "text/template/parse",
  "net/url",
  "text/template",
  "go/doc",
  "go/format",
  -- Go type checking
  "math/big",
  "go/constant",
  "go/build",
  "container/heap",
  "go/types",
  "text/scanner",
  "compress/flate",
  "compress/zlib",
  "debug/dwarf",
  "debug/elf",
  "go/internal/gcimporter",
  "go/internal/gccgoimporter",
  "go/importer",
  -- One of a kind
  "archive/tar",
  "archive/zip",
  "compress/bzip2",
  "compress/gzip",
  "compress/lzw",
  "container/list",
  "database/sql/driver",
  "database/sql",
  "debug/gosym",
  "debug/macho",
  "debug/pe",
  "debug/plan9obj",
  "encoding",
  "encoding/ascii85",
  "encoding/asn1",
  "encoding/csv",
  "encoding/gob",
  "encoding/hex",
  "encoding/json",
  "encoding/pem",
  "encoding/xml",
  "html",
  "image/internal/imageutil",
  "image/draw",
  "image/gif",
  "image/jpeg",
  "image/png",
  "index/suffixarray",
  "internal/singleflight",
  "internal/trace",
  "mime",
  "mime/quotedprintable",
  "net/internal/socktest",
  "html/template",
  -- CGO related
  "runtime/cgo",
  "runtime/race",
  "os/user",
  -- Basic networking
  "internal/nettrace",
  "net",
  -- Uses of networking
  "net/textproto",
  "net/mail",
  "log/syslog", -- Panic in linker...
  -- Core crypto
  "crypto/aes",
  "crypto/des",
  "crypto/hmac",
  "crypto/md5",
  "crypto/rc4",
  "crypto/sha1",
  "crypto/sha256",
  "crypto/sha512",
  -- Crypto random
  "crypto/rand",
  -- Mathematical crypto
  "crypto/rsa",
  "crypto/elliptic",
  "crypto/ecdsa", -- Panic in linker...
  "crypto/dsa",
  -- SSL/TLS
  "crypto/x509/pkix",
  -- net + crypto
  "mime/multipart",
  -- HTTP
  "net/http/httptrace",
  "net/http/internal"
]

/-- The entries of `pkgOrder` that the source has turned into comments, in the
order of the source. -/
def commentedOut : List String := [
  "internal/syscall/windows",
  "internal/syscall/windows/registry",
  "runtime/msan",
  "crypto/x509",
  "crypto/tls",
  "net/smtp",
  "http",
  "expvar",
  "net/http/cgi",
  "net/http/cookiejar",
  "net/http/fcgi",
  "net/http/httptest",
  "net/http/httputil",
  "net/http/pprof",
  "net/rpc",
  "net/rpc/jsonrpc"
]

/-- The entries of `pkgOrder` that the source annotates `Panic in linker...`. -/
def linkerPanic : List String := ["log/syslog", "crypto/ecdsa"]

/-- The function `runinstall`: set up `go install ...`, run it in `dir` with
an empty environment override, log the captured output of a failed run when
there is any, and hand back the error. -/
def runinstall (cfg : Config) (ctxt : Context) (extraargs : List String) (dir : String)
    (s : State) : Option ExecError × State :=
  let args := ["install", "-ldflags", cfg.ldflags, "-buildmode", "shared", "-linkshared", "-v"]
  let args := args ++ extraargs
  let command : Cmd := { ctx := ctxt, name := "go", args := args, dir := dir, env := [] }
  let res := cfg.exec s.spawned command
  let s1 : State :=
    { now := s.now + res.elapsed, spawned := s.spawned + 1,
      trace := s.trace ++ [Event.invoke s.now command res] }
  match CombinedOutput res with
  | (out, some err) => (some err, if out.length > 0 then s1.emit (Event.output out) else s1)
  | (_, none) => (none, s1)

/-- The function `compilestd`. -/
def compilestd (cfg : Config) (s : State) : Option ExecError × State :=
  let ctxt := WithTimeout s.now (1 * Minute)
  runinstall cfg ctxt ["std"] (Join [cfg.goroot, "src"]) s

/-- The function `trycompile`. -/
def trycompile (cfg : Config) (pkg : String) (s : State) : Option ExecError × State :=
  let ctxt := WithTimeout s.now (5 * Second)
  runinstall cfg ctxt [] (Join [cfg.goroot, "src", pkg]) s

/-- The body of the loop of `main`, for one entry of the catalog. -/
def pkgStep (cfg : Config) (s : State) (pkg : String) : State :=
  let s1 := s.emit (Event.buildingPkg pkg)
  let (err, s2) := trycompile cfg pkg s1
  let s3 := match err with
    | some e => s2.emit (Event.errorPkg e)
    | none => s2.emit (Event.builtPkg pkg)
  -- Give the filesystem a little time
  s3.sleep (100 * Millisecond)

/-- The function `main`, over any catalog, started at instant `t0`:
`log.Fatalln` ends the process with status 1, returning from `main` ends it
with status 0. -/
def mainWith (cfg : Config) (catalog : List String) (t0 : Nat) : Run :=
  let s0 : State := { now := t0, spawned := 0, trace := [] }
  -- First compile the standard library as one giant package
  let s1 := s0.emit Event.buildingStd
  let (err, s2) := compilestd cfg s1
  match err with
  | some e => { trace := (s2.emit (Event.fatalStd e)).trace, exit := 1 }
  | none =>
    let s3 := (s2.emit Event.builtStd).sleep (2 * Second)
    -- Walk through the packages in dependency order and attempt to build
    let s4 := catalog.foldl (pkgStep cfg) s3
    { trace := s4.trace, exit := 0 }

/-- The function `main` of the program: the run over `pkgOrder`. -/
def main (cfg : Config) (t0 : Nat) : Run := mainWith cfg pkgOrder t0


/-! ## reading a trace -/

/-- The command `runinstall` sets up from its arguments. -/
def installCmd (cfg : Config) (ctxt : Context) (extraargs : List String) (dir : String) : Cmd :=
  { ctx := ctxt, name := "go",
    args := ["install", "-ldflags", cfg.ldflags, "-buildmode", "shared", "-linkshared", "-v"]
      ++ extraargs,
    dir := dir, env := [] }

/-- The bootstrap command: what `compilestd` makes `runinstall` launch when
it is called at instant `t`. -/
def stdCmd (cfg : Config) (t : Nat) : Cmd :=
  { ctx := WithTimeout t (1 * Minute), name := "go",
    args := ["install", "-ldflags", cfg.ldflags, "-buildmode", "shared", "-linkshared", "-v",
      "std"],
    dir := Join [cfg.goroot, "src"], env := [] }

/-- The command of one package: what `trycompile pkg` makes `runinstall`
launch when it is called at instant `t`. -/
def pkgCmd (cfg : Config) (t : Nat) (pkg : String) : Cmd :=
  { ctx := WithTimeout t (5 * Second), name := "go",
    args := ["install", "-ldflags", cfg.ldflags, "-buildmode", "shared", "-linkshared", "-v"],
    dir := Join [cfg.goroot, "src", pkg], env := [] }

/-- The process launches of a trace, in order: start instant, command, answer. -/
def launches (T : List Event) : List (Nat × Cmd × ProcResult) :=
  T.filterMap fun e =>
    match e with
    | Event.invoke t c r => some (t, c, r)
    | _ => none

/-- The commands launched, in order. -/
def invocations (T : List Event) : List Cmd := (launches T).map fun x => x.2.1

/-- The instants at which the commands were launched, in order. -/
def starts (T : List Event) : List Nat := (launches T).map fun x => x.1

/-- The answers of the world to the launches, in order. -/
def results (T : List Event) : List ProcResult := (launches T).map fun x => x.2.2

/-- The packages of the `Building package:` lines, in order. -/
def buildingLines (T : List Event) : List String :=
  T.filterMap fun e =>
    match e with
    | Event.buildingPkg p => some p
    | _ => none

/-- The packages of the `Successfully Built:` lines, in order. -/
def successLines (T : List Event) : List String :=
  T.filterMap fun e =>
    match e with
    | Event.builtPkg p => some p
    | _ => none

/-- The errors of the `Error building package:` lines, in order. -/
def failureLines (T : List Event) : List ExecError :=
  T.filterMap fun e =>
    match e with
    | Event.errorPkg err => some err
    | _ => none

/-- The `Successfully Built:` and `Error building package:` lines, in order. -/
def verdictLines (T : List Event) : List Event :=
  T.filter fun e =>
    match e with
    | Event.builtPkg _ => true
    | Event.errorPkg _ => true
    | _ => false

/-- The lines that only the loop over the catalog writes. -/
def pkgLines (T : List Event) : List Event :=
  T.filter fun e =>
    match e with
    | Event.buildingPkg _ => true
    | Event.builtPkg _ => true
    | Event.errorPkg _ => true
    | _ => false

/-- The line `runinstall` writes after a launch: the captured output of a
failed process, when there is any. -/
def outputEvents (r : ProcResult) : List Event :=
  match CombinedOutput r with
  | (out, some _) => if out.length > 0 then [Event.output out] else []
  | (_, none) => []

/-- The line `main` writes about package `p` once its task has answered `r`. -/
def verdict (p : String) (r : ProcResult) : Event :=
  match (CombinedOutput r).2 with
  | some e => Event.errorPkg e
  | none => Event.builtPkg p

/-- The events of one round of the loop: package `p`, launched at `t` as `c`,
answered `r`. -/
def pkgBlock (p : String) (t : Nat) (c : Cmd) (r : ProcResult) : List Event :=
  [Event.buildingPkg p, Event.invoke t c r] ++ outputEvents r
    ++ [verdict p r, Event.sleep (100 * Millisecond)]

/-- The events of the loop over `catalog`, entered at instant `now` after `k`
launches. -/
def loopTrace (cfg : Config) : Nat → Nat → List String → List Event
  | _, _, [] => []
  | now, k, p :: ps =>
    pkgBlock p now (pkgCmd cfg now p) (cfg.exec k (pkgCmd cfg now p))
      ++ loopTrace cfg (now + (cfg.exec k (pkgCmd cfg now p)).elapsed + 100 * Millisecond)
          (k + 1) ps

/-! ## sample runs -/

/-- A world in which the bootstrap succeeds and, of the tasks after it, only
the second one fails (exit status 2, with output). -/
def demoExec (k : Nat) (_ : Cmd) : ProcResult :=
  if k = 2 then { out := "b.go:1:1: boom\n", status := ProcStatus.exited 2, elapsed := 3 * Second }
  else { out := "", status := ProcStatus.exited 0, elapsed := Second }

/-- A run configuration with linker flags `-X foo=bar`, over `demoExec`. -/
def demoCfg : Config := { ldflags := "-X foo=bar", goroot := "/usr/local/go", exec := demoExec }

/-- A run configuration in which the bootstrap process exits with status 1. -/
def failCfg : Config :=
  { ldflags := "", goroot := "/usr/local/go",
    exec := fun _ _ => { out := "link: cannot build std\n", status := ProcStatus.exited 1,
                         elapsed := 2 * Second } }

/-- A world in which the bootstrap succeeds and every later process exits with
status 1 after writing `out`. -/
def failingWith (out : String) : Config :=
  { ldflags := "", goroot := "/usr/local/go",
    exec := fun k _ =>
      if k = 0 then { out := "", status := ProcStatus.exited 0, elapsed := Second }
      else { out := out, status := ProcStatus.exited 1, elapsed := Second } }

/-! ## paths: `Join` keeps plain packages apart -/

theorem splitSep_ne_nil (p : List Char) : splitSep p ≠ [] := by
  cases p with
  | nil => simp [splitSep]
  | cons c cs =>
    simp only [splitSep]
    split
    · simp
    · split <;> simp

theorem splitSep_append (a b : List Char) :
    splitSep (a ++ '/' :: b) = splitSep a ++ splitSep b := by
  induction a with
  | nil => simp [splitSep]
  | cons c a ih =>
    simp only [List.cons_append, splitSep, List.append_eq]
    rw [ih]
    by_cases hc : c = '/'
    · simp [hc]
    · simp only [hc, if_false]
      rcases h : splitSep a with _ | ⟨seg, segs⟩
      · exact absurd h (splitSep_ne_nil a)
      · simp

theorem splitSep_of_no_sep (s : List Char) (h : '/' ∉ s) : splitSep s = [s] := by
  induction s with
  | nil => simp [splitSep]
  | cons c cs ih =>
    simp only [List.mem_cons, not_or] at h
    have hc : c ≠ '/' := fun e => h.1 e.symm
    simp [splitSep, hc, ih h.2]

theorem splitSep_no_sep (p : List Char) : ∀ seg ∈ splitSep p, '/' ∉ seg := by
  induction p with
  | nil => simp [splitSep]
  | cons c cs ih =>
    intro seg hseg
    simp only [splitSep] at hseg
    by_cases hc : c = '/'
    · simp only [hc, if_true, List.mem_cons] at hseg
      rcases hseg with h | h
      · simp [h]
      · exact ih seg h
    · simp only [hc, if_false] at hseg
      rcases h : splitSep cs with _ | ⟨s, segs⟩
      · exact absurd h (splitSep_ne_nil cs)
      · rw [h] at hseg ih
        simp only [List.mem_cons] at hseg
        rcases hseg with h2 | h2
        · subst h2
          have := ih s (by simp)
          simp only [List.mem_cons, not_or]
          exact ⟨fun e => hc e.symm, this⟩
        · exact ih seg (by simp [h2])

theorem joinSep_splitSep (p : List Char) : joinSep (splitSep p) = p := by
  induction p with
  | nil => simp [splitSep, joinSep]
  | cons c cs ih =>
    simp only [splitSep]
    rcases h : splitSep cs with _ | ⟨s, segs⟩
    · exact absurd h (splitSep_ne_nil cs)
    · rw [h] at ih
      by_cases hc : c = '/'
      · simp [hc, joinSep, ih]
      · simp only [hc, if_false]
        cases segs with
        | nil =>
          simp only [joinSep] at ih ⊢
          rw [ih]
        | cons t rest =>
          simp only [joinSep] at ih ⊢
          rw [← ih]
          simp

theorem splitSep_joinSep (L : List (List Char)) (hne : L ≠ [])
    (h : ∀ s ∈ L, '/' ∉ s) : splitSep (joinSep L) = L := by
  induction L with
  | nil => exact absurd rfl hne
  | cons s rest ih =>
    cases rest with
    | nil => simpa [joinSep] using splitSep_of_no_sep s (h s (by simp))
    | cons t rest =>
      simp only [joinSep, splitSep_append]
      rw [ih (by simp) (fun x hx => h x (by simp [hx])),
        splitSep_of_no_sep s (h s (by simp))]
      simp

theorem joinSep_eq_nil (L : List (List Char)) (h : joinSep L = []) : ∀ s ∈ L, s = [] := by
  cases L with
  | nil => simp
  | cons s rest =>
    cases rest with
    | nil => simpa [joinSep] using h
    | cons t rest => simp [joinSep] at h

theorem foldl_cleanStep_real (rooted : Bool) (segs S : List (List Char))
    (h : ∀ seg ∈ segs, seg ≠ [] ∧ seg ≠ ['.'] ∧ seg ≠ ['.', '.']) :
    segs.foldl (cleanStep rooted) S = segs.reverse ++ S := by
  induction segs generalizing S with
  | nil => simp
  | cons seg rest ih =>
    have hs := h seg (by simp)
    rw [List.foldl_cons, ih _ (fun x hx => h x (by simp [hx]))]
    simp [cleanStep, hs.1, hs.2.1, hs.2.2]

theorem cleanStep_good (rooted : Bool) (S : List (List Char)) (seg : List Char)
    (hS : ∀ s ∈ S, s ≠ [] ∧ '/' ∉ s) (hseg : '/' ∉ seg) :
    ∀ s ∈ cleanStep rooted S seg, s ≠ [] ∧ '/' ∉ s := by
  unfold cleanStep
  by_cases h1 : seg = [] ∨ seg = ['.']
  · simpa [h1] using hS
  · simp only [h1, if_false]
    by_cases h2 : seg = ['.', '.']
    · simp only [h2, if_true]
      cases S with
      | nil =>
        cases rooted <;> simp
      | cons top rest =>
        by_cases h3 : top = ['.', '.']
        · simp only [h3, if_true]
          intro s hs
          rcases List.mem_cons.1 hs with e | e
          · subst e; simp
          · exact hS s (by simpa [h3] using e)
        · simp only [h3, if_false]
          intro s hs
          exact hS s (by simp [hs])
    · simp only [h2, if_false]
      intro s hs
      rcases List.mem_cons.1 hs with e | e
      · subst e
        exact ⟨fun e => h1 (Or.inl e), hseg⟩
      · exact hS s e

theorem foldl_cleanStep_good (rooted : Bool) (segs S : List (List Char))
    (hS : ∀ s ∈ S, s ≠ [] ∧ '/' ∉ s) (hsegs : ∀ seg ∈ segs, '/' ∉ seg) :
    ∀ s ∈ segs.foldl (cleanStep rooted) S, s ≠ [] ∧ '/' ∉ s := by
  induction segs generalizing S with
  | nil => simpa using hS
  | cons seg rest ih =>
    rw [List.foldl_cons]
    exact ih _ (cleanStep_good rooted S seg hS (hsegs seg (by simp)))
      (fun x hx => hsegs x (by simp [hx]))

theorem plain_real (p : String) (hp : plain p = true) :
    ∀ seg ∈ splitSep p.data, seg ≠ [] ∧ seg ≠ ['.'] ∧ seg ≠ ['.', '.'] := by
  simpa [plain, List.all_eq_true] using hp

theorem cleanStack_good (rooted : Bool) (path : List Char) :
    ∀ s ∈ cleanStack rooted path, s ≠ [] ∧ '/' ∉ s := by
  intro s hs
  unfold cleanStack at hs
  rw [List.mem_reverse] at hs
  exact foldl_cleanStep_good rooted _ [] (by simp) (splitSep_no_sep path) s hs

theorem cleanStack_append (rooted : Bool) (x : List Char) (p : String) (hp : plain p = true) :
    cleanStack rooted (x ++ '/' :: p.data) = cleanStack rooted x ++ splitSep p.data := by
  unfold cleanStack
  rw [splitSep_append, List.foldl_append, foldl_cleanStep_real _ _ _ (plain_real p hp)]
  simp

theorem joinSep_ne_nil_of_plain (A : List (List Char)) (p : String) (hp : plain p = true) :
    joinSep (A ++ splitSep p.data) ≠ [] := by
  intro h
  rcases hs : splitSep p.data with _ | ⟨seg, segs⟩
  · exact splitSep_ne_nil _ hs
  · have h1 := joinSep_eq_nil _ h seg (by simp [hs])
    exact (plain_real p hp seg (by simp [hs])).1 h1

theorem cleanChars_cons (c : Char) (x : List Char) :
    cleanChars (c :: x)
      = if c = '/' then '/' :: joinSep (cleanStack (decide (c = '/')) (c :: x))
        else if joinSep (cleanStack (decide (c = '/')) (c :: x)) = [] then ['.']
        else joinSep (cleanStack (decide (c = '/')) (c :: x)) := by
  simp [cleanChars, cleanStack]

theorem cleanChars_append_plain (c : Char) (x : List Char) (p : String)
    (hp : plain p = true) :
    cleanChars (c :: x ++ '/' :: p.data)
      = if c = '/'
        then '/' :: joinSep (cleanStack (decide (c = '/')) (c :: x) ++ splitSep p.data)
        else joinSep (cleanStack (decide (c = '/')) (c :: x) ++ splitSep p.data) := by
  rw [List.cons_append, cleanChars_cons, ← List.cons_append, cleanStack_append _ _ _ hp]
  simp [joinSep_ne_nil_of_plain _ p hp]

theorem joinSep_append_cancel (A : List (List Char)) (p q : String)
    (hA : ∀ s ∈ A, s ≠ [] ∧ '/' ∉ s)
    (h : joinSep (A ++ splitSep p.data) = joinSep (A ++ splitSep q.data)) : p = q := by
  have hne : ∀ r : String, A ++ splitSep r.data ≠ [] := by
    intro r hr
    exact splitSep_ne_nil _ (List.append_eq_nil.1 hr).2
  have hns : ∀ r : String, ∀ s ∈ A ++ splitSep r.data, '/' ∉ s := by
    intro r s hs
    rcases List.mem_append.1 hs with h1 | h1
    · exact (hA s h1).2
    · exact splitSep_no_sep _ s h1
  have h2 := congrArg splitSep h
  rw [splitSep_joinSep _ (hne p) (hns p), splitSep_joinSep _ (hne q) (hns q)] at h2
  have h3 := List.append_cancel_left h2
  have h4 := congrArg joinSep h3
  rw [joinSep_splitSep, joinSep_splitSep] at h4
  exact String.ext h4

theorem cleanChars_append_inj (c : Char) (x : List Char) (p q : String)
    (hp : plain p = true) (hq : plain q = true)
    (h : cleanChars (c :: x ++ '/' :: p.data) = cleanChars (c :: x ++ '/' :: q.data)) :
    p = q := by
  rw [cleanChars_append_plain c x p hp, cleanChars_append_plain c x q hq] at h
  by_cases hc : c = '/'
  · simp only [hc, if_true, List.cons.injEq, true_and] at h
    exact joinSep_append_cancel _ p q (cleanStack_good _ _) (by simpa [hc] using h)
  · simp only [hc, if_false] at h
    exact joinSep_append_cancel _ p q (cleanStack_good _ _) h

theorem joinSep_append_ne (A : List (List Char)) (p : String) (hp : plain p = true)
    (hA : ∀ s ∈ A, s ≠ [] ∧ '/' ∉ s) :
    joinSep A ≠ joinSep (A ++ splitSep p.data) := by
  intro h
  cases A with
  | nil =>
    rw [List.nil_append] at h
    exact joinSep_ne_nil_of_plain [] p hp (by simpa using h.symm)
  | cons a A =>
    have hns : ∀ s ∈ a :: A ++ splitSep p.data, '/' ∉ s := by
      intro s hs
      rcases List.mem_append.1 hs with h1 | h1
      · exact (hA s h1).2
      · exact splitSep_no_sep _ s h1
    have h2 := congrArg splitSep h
    rw [splitSep_joinSep _ (by simp) (fun s hs => (hA s hs).2),
      splitSep_joinSep _ (by simp) hns] at h2
    have h3 : splitSep p.data = [] := by
      have := congrArg List.length h2
      simp only [List.length_append] at this
      exact List.length_eq_zero.1 (by omega)
    exact splitSep_ne_nil _ h3

theorem cleanChars_append_ne (c : Char) (x : List Char) (p : String) (hp : plain p = true) :
    cleanChars (c :: x) ≠ cleanChars (c :: x ++ '/' :: p.data) := by
  rw [cleanChars_append_plain c x p hp, cleanChars_cons]
  have hg := cleanStack_good (decide (c = '/')) (c :: x)
  have hne := joinSep_append_ne _ p hp hg
  by_cases hc : c = '/'
  · rw [if_pos hc, if_pos hc]
    intro h
    exact hne (List.cons.inj h).2
  · rw [if_neg hc, if_neg hc]
    by_cases hb : joinSep (cleanStack (decide (c = '/')) (c :: x)) = []
    · rw [if_pos hb]
      intro h
      have hnil : cleanStack (decide (c = '/')) (c :: x) = [] := by
        rcases hs : cleanStack (decide (c = '/')) (c :: x) with _ | ⟨a, A⟩
        · rfl
        · exact absurd (joinSep_eq_nil _ hb a (by simp [hs])) (hg a (by simp [hs])).1
      rw [hnil, List.nil_append, joinSep_splitSep] at h
      have hp2 := plain_real p hp ['.'] (by rw [← h]; simp [splitSep])
      exact hp2.2.1 rfl
    · rw [if_neg hb]
      exact hne

theorem Join_src_form (r : String) :
    ∃ c x, Join [r, "src"] = String.mk (cleanChars (c :: x))
      ∧ ∀ p : String, Join [r, "src", p] = String.mk (cleanChars (c :: x ++ '/' :: p.data)) := by
  by_cases hr : r = ""
  · subst hr
    refine ⟨'s', ['r', 'c'], ?_, ?_⟩
    · decide
    · intro p
      simp [Join, Clean, joinSep]
  · rcases hd : r.data with _ | ⟨c, rest⟩
    · exact absurd (String.ext (by simpa using hd)) hr
    · refine ⟨c, rest ++ '/' :: ['s', 'r', 'c'], ?_, ?_⟩
      · simp [Join, hr, Clean, joinSep, hd]
      · intro p
        simp [Join, hr, Clean, joinSep, hd]

theorem Join_src_inj (r p q : String) (hp : plain p = true) (hq : plain q = true)
    (h : Join [r, "src", p] = Join [r, "src", q]) : p = q := by
  obtain ⟨c, x, _, hpq⟩ := Join_src_form r
  rw [hpq p, hpq q] at h
  exact cleanChars_append_inj c x p q hp hq (congrArg String.data h)

theorem Join_src_ne (r p : String) (hp : plain p = true) :
    Join [r, "src"] ≠ Join [r, "src", p] := by
  obtain ⟨c, x, h0, hpq⟩ := Join_src_form r
  rw [h0, hpq p]
  intro h
  exact cleanChars_append_ne c x p hp (congrArg String.data h)

/-! ## the task runner -/

theorem runinstall_eq (cfg : Config) (ctxt : Context) (extraargs : List String)
    (dir : String) (s : State) (c : Cmd) (hc : c = installCmd cfg ctxt extraargs dir) :
    runinstall cfg ctxt extraargs dir s =
      ((CombinedOutput (cfg.exec s.spawned c)).2,
        { now := s.now + (cfg.exec s.spawned c).elapsed, spawned := s.spawned + 1,
          trace := s.trace ++ Event.invoke s.now c (cfg.exec s.spawned c)
            :: outputEvents (cfg.exec s.spawned c) }) := by
  subst hc
  unfold runinstall outputEvents installCmd
  simp only []
  generalize cfg.exec s.spawned _ = r
  rcases h : CombinedOutput r with ⟨out, _ | e⟩
  · simp
  · by_cases ho : out.length > 0 <;> simp [ho, State.emit]

theorem combinedOutput_fst (r : ProcResult) : (CombinedOutput r).1 = r.out := by
  unfold CombinedOutput
  split <;> rfl

theorem combinedOutput_none_iff (r : ProcResult) :
    (CombinedOutput r).2 = none ↔ r.status = ProcStatus.exited 0 := by
  unfold CombinedOutput
  split <;> simp_all

theorem pkgStep_eq (cfg : Config) (s : State) (p : String) :
    pkgStep cfg s p =
      { now := s.now + (cfg.exec s.spawned (pkgCmd cfg s.now p)).elapsed + 100 * Millisecond,
        spawned := s.spawned + 1,
        trace := s.trace ++ pkgBlock p s.now (pkgCmd cfg s.now p)
          (cfg.exec s.spawned (pkgCmd cfg s.now p)) } := by
  unfold pkgStep trycompile
  simp only [State.emit]
  rw [runinstall_eq cfg _ [] _ _ (pkgCmd cfg s.now p) (by simp [pkgCmd, installCmd])]
  simp only [pkgBlock, verdict, State.sleep]
  generalize cfg.exec s.spawned _ = r
  rcases h : (CombinedOutput r).2 with _ | e <;> simp

theorem loop_eq (cfg : Config) (catalog : List String) (s : State) :
    (catalog.foldl (pkgStep cfg) s).trace
      = s.trace ++ loopTrace cfg s.now s.spawned catalog := by
  induction catalog generalizing s with
  | nil => simp [loopTrace]
  | cons p ps ih =>
    rw [List.foldl_cons, ih, pkgStep_eq]
    simp [loopTrace]

theorem main_ok (cfg : Config) (catalog : List String) (t0 : Nat)
    (h : (cfg.exec 0 (stdCmd cfg t0)).status = ProcStatus.exited 0) :
    mainWith cfg catalog t0 =
      { trace := [Event.buildingStd, Event.invoke t0 (stdCmd cfg t0) (cfg.exec 0 (stdCmd cfg t0)),
            Event.builtStd, Event.sleep (2 * Second)]
          ++ loopTrace cfg (t0 + (cfg.exec 0 (stdCmd cfg t0)).elapsed + 2 * Second) 1 catalog,
        exit := 0 } := by
  have h2 := (combinedOutput_none_iff _).2 h
  unfold mainWith compilestd
  simp only [State.emit]
  rw [runinstall_eq cfg _ ["std"] _ _ (stdCmd cfg t0) (by simp [stdCmd, installCmd])]
  simp only [h2, loop_eq, State.sleep, outputEvents]
  have h3 : CombinedOutput (cfg.exec 0 (stdCmd cfg t0))
      = ((CombinedOutput (cfg.exec 0 (stdCmd cfg t0))).1, none) := by
    rw [← h2]
  rw [h3]
  simp

theorem main_fail (cfg : Config) (catalog : List String) (t0 : Nat) (e : ExecError)
    (h : (CombinedOutput (cfg.exec 0 (stdCmd cfg t0))).2 = some e) :
    mainWith cfg catalog t0 =
      { trace := [Event.buildingStd, Event.invoke t0 (stdCmd cfg t0) (cfg.exec 0 (stdCmd cfg t0))]
          ++ outputEvents (cfg.exec 0 (stdCmd cfg t0)) ++ [Event.fatalStd e],
        exit := 1 } := by
  unfold mainWith compilestd
  simp only [State.emit]
  rw [runinstall_eq cfg _ ["std"] _ _ (stdCmd cfg t0) (by simp [stdCmd, installCmd])]
  simp [h]

/-! ## projections of the loop -/

theorem launches_append (A B : List Event) : launches (A ++ B) = launches A ++ launches B := by
  simp [launches]

theorem buildingLines_append (A B : List Event) :
    buildingLines (A ++ B) = buildingLines A ++ buildingLines B := by
  simp [buildingLines]

theorem successLines_append (A B : List Event) :
    successLines (A ++ B) = successLines A ++ successLines B := by
  simp [successLines]

theorem failureLines_append (A B : List Event) :
    failureLines (A ++ B) = failureLines A ++ failureLines B := by
  simp [failureLines]

theorem verdictLines_append (A B : List Event) :
    verdictLines (A ++ B) = verdictLines A ++ verdictLines B := by
  simp [verdictLines]

theorem pkgLines_append (A B : List Event) :
    pkgLines (A ++ B) = pkgLines A ++ pkgLines B := by
  simp [pkgLines]

theorem outputEvents_cases (r : ProcResult) :
    outputEvents r = [] ∨ outputEvents r = [Event.output r.out] := by
  unfold outputEvents
  have h1 := combinedOutput_fst r
  rcases h : CombinedOutput r with ⟨out, _ | e⟩
  · simp
  · rw [h] at h1
    simp only at h1
    subst h1
    by_cases ho : (r.out).length > 0 <;> simp [ho]

theorem verdict_cases (p : String) (r : ProcResult) :
    (verdict p r = Event.builtPkg p ∧ (CombinedOutput r).2 = none)
      ∨ ∃ e, verdict p r = Event.errorPkg e ∧ (CombinedOutput r).2 = some e := by
  unfold verdict
  rcases h : (CombinedOutput r).2 with _ | e
  · simp
  · simp

theorem launches_pkgBlock (p : String) (t : Nat) (c : Cmd) (r : ProcResult) :
    launches (pkgBlock p t c r) = [(t, c, r)] := by
  rcases outputEvents_cases r with h | h <;>
    rcases verdict_cases p r with ⟨hv, _⟩ | ⟨e, hv, _⟩ <;>
    simp [pkgBlock, launches, h, hv]

theorem buildingLines_pkgBlock (p : String) (t : Nat) (c : Cmd) (r : ProcResult) :
    buildingLines (pkgBlock p t c r) = [p] := by
  rcases outputEvents_cases r with h | h <;>
    rcases verdict_cases p r with ⟨hv, _⟩ | ⟨e, hv, _⟩ <;>
    simp [pkgBlock, buildingLines, h, hv]

theorem verdictLines_pkgBlock (p : String) (t : Nat) (c : Cmd) (r : ProcResult) :
    verdictLines (pkgBlock p t c r) = [verdict p r] := by
  rcases outputEvents_cases r with h | h <;>
    rcases verdict_cases p r with ⟨hv, _⟩ | ⟨e, hv, _⟩ <;>
    simp [pkgBlock, verdictLines, h, hv]

theorem successLines_pkgBlock (p : String) (t : Nat) (c : Cmd) (r : ProcResult) :
    successLines (pkgBlock p t c r)
      = if (CombinedOutput r).2 = none then [p] else [] := by
  rcases outputEvents_cases r with h | h <;>
    rcases verdict_cases p r with ⟨hv, hc⟩ | ⟨e, hv, hc⟩ <;>
    simp [pkgBlock, successLines, h, hv, hc]

theorem failureLines_pkgBlock (p : String) (t : Nat) (c : Cmd) (r : ProcResult) :
    failureLines (pkgBlock p t c r) = ((CombinedOutput r).2).toList := by
  rcases outputEvents_cases r with h | h <;>
    rcases verdict_cases p r with ⟨hv, hc⟩ | ⟨e, hv, hc⟩ <;>
    simp [pkgBlock, failureLines, h, hv, hc]

theorem launches_loopTrace_length (cfg : Config) (catalog : List String) (now k : Nat) :
    (launches (loopTrace cfg now k catalog)).length = catalog.length := by
  induction catalog generalizing now k with
  | nil => simp [loopTrace, launches]
  | cons p ps ih => simp [loopTrace, launches_append, launches_pkgBlock, ih]

theorem buildingLines_loopTrace (cfg : Config) (catalog : List String) (now k : Nat) :
    buildingLines (loopTrace cfg now k catalog) = catalog := by
  induction catalog generalizing now k with
  | nil => simp [loopTrace, buildingLines]
  | cons p ps ih => simp [loopTrace, buildingLines_append, buildingLines_pkgBlock, ih]

theorem invocations_loopTrace (cfg : Config) (catalog : List String) (now k : Nat) :
    invocations (loopTrace cfg now k catalog)
      = List.zipWith (pkgCmd cfg) (starts (loopTrace cfg now k catalog)) catalog := by
  induction catalog generalizing now k with
  | nil => simp [loopTrace, launches, invocations, starts]
  | cons p ps ih =>
    have := ih (now + (cfg.exec k (pkgCmd cfg now p)).elapsed + 100 * Millisecond) (k + 1)
    simp only [invocations, starts] at this ⊢
    simp [loopTrace, launches_append, launches_pkgBlock, this]

theorem verdictLines_loopTrace (cfg : Config) (catalog : List String) (now k : Nat) :
    verdictLines (loopTrace cfg now k catalog)
      = List.zipWith verdict catalog (results (loopTrace cfg now k catalog)) := by
  induction catalog generalizing now k with
  | nil => simp [loopTrace, verdictLines]
  | cons p ps ih =>
    have := ih (now + (cfg.exec k (pkgCmd cfg now p)).elapsed + 100 * Millisecond) (k + 1)
    simp only [results] at this ⊢
    simp [loopTrace, launches_append, launches_pkgBlock, verdictLines_append,
      verdictLines_pkgBlock, this]

theorem successLines_loopTrace (cfg : Config) (catalog : List String) (now k : Nat) :
    successLines (loopTrace cfg now k catalog)
      = (List.zip catalog (results (loopTrace cfg now k catalog))).filterMap
          fun x => if (CombinedOutput x.2).2 = none then some x.1 else none := by
  induction catalog generalizing now k with
  | nil => simp [loopTrace, successLines]
  | cons p ps ih =>
    have := ih (now + (cfg.exec k (pkgCmd cfg now p)).elapsed + 100 * Millisecond) (k + 1)
    simp only [results] at this ⊢
    simp only [loopTrace, launches_append, launches_pkgBlock, successLines_append,
      successLines_pkgBlock, this, List.map_append, List.map_cons, List.map_nil,
      List.singleton_append, List.zip_cons_cons, List.filterMap_cons]
    split <;> simp_all

theorem failureLines_loopTrace (cfg : Config) (catalog : List String) (now k : Nat) :
    failureLines (loopTrace cfg now k catalog)
      = (results (loopTrace cfg now k catalog)).filterMap fun r => (CombinedOutput r).2 := by
  induction catalog generalizing now k with
  | nil => simp [loopTrace, failureLines, results, launches]
  | cons p ps ih =>
    have := ih (now + (cfg.exec k (pkgCmd cfg now p)).elapsed + 100 * Millisecond) (k + 1)
    simp only [results] at this ⊢
    simp only [loopTrace, launches_append, launches_pkgBlock, failureLines_append,
      failureLines_pkgBlock, this, List.map_append, List.map_cons, List.map_nil,
      List.singleton_append, List.filterMap_cons]
    rcases h : (CombinedOutput (cfg.exec k (pkgCmd cfg now p))).2 with _ | e <;> simp

theorem deadline_loopTrace (cfg : Config) (catalog : List String) (now k : Nat) :
    ∀ x ∈ launches (loopTrace cfg now k catalog), x.2.1.ctx.deadline = x.1 + 5 * Second := by
  induction catalog generalizing now k with
  | nil => simp [loopTrace, launches]
  | cons p ps ih =>
    intro x hx
    simp only [loopTrace, launches_append, launches_pkgBlock, List.mem_append,
      List.mem_singleton] at hx
    rcases hx with hx | hx
    · subst hx
      simp [pkgCmd, WithTimeout]
    · exact ih _ _ x hx

theorem exec_loopTrace (cfg : Config) (catalog : List String) (now k : Nat) :
    ∀ i x, (launches (loopTrace cfg now k catalog))[i]? = some x
      → x.2.2 = cfg.exec (k + i) x.2.1 := by
  induction catalog generalizing now k with
  | nil => simp [loopTrace, launches]
  | cons p ps ih =>
    intro i x hx
    simp only [loopTrace, launches_append, launches_pkgBlock, List.singleton_append] at hx
    cases i with
    | zero =>
      simp only [List.getElem?_cons_zero, Option.some.injEq] at hx
      subst hx
      simp
    | succ j =>
      simp only [List.getElem?_cons_succ] at hx
      have := ih _ _ j x hx
      rw [this]
      congr 1
      omega

theorem args_loopTrace (cfg : Config) (catalog : List String) (now k : Nat) :
    (invocations (loopTrace cfg now k catalog)).map Cmd.args
      = List.replicate catalog.length
          ["install", "-ldflags", cfg.ldflags, "-buildmode", "shared", "-linkshared", "-v"] := by
  induction catalog generalizing now k with
  | nil => simp [loopTrace, launches, invocations]
  | cons p ps ih =>
    have := ih (now + (cfg.exec k (pkgCmd cfg now p)).elapsed + 100 * Millisecond) (k + 1)
    simp only [invocations] at this ⊢
    simp only [loopTrace, launches_append, launches_pkgBlock, List.map_append, List.map_cons,
      List.map_nil, List.singleton_append, this, List.length_cons, List.replicate_succ]
    rfl

theorem task_loopTrace (cfg : Config) (catalog : List String) (now k : Nat) :
    (invocations (loopTrace cfg now k catalog)).map (fun c => (c.args, c.dir))
      = catalog.map fun p =>
          (["install", "-ldflags", cfg.ldflags, "-buildmode", "shared", "-linkshared", "-v"],
            Join [cfg.goroot, "src", p]) := by
  induction catalog generalizing now k with
  | nil => simp [loopTrace, launches, invocations]
  | cons p ps ih =>
    have := ih (now + (cfg.exec k (pkgCmd cfg now p)).elapsed + 100 * Millisecond) (k + 1)
    simp only [invocations] at this ⊢
    simp only [loopTrace, launches_append, launches_pkgBlock, List.map_append, List.map_cons,
      List.map_nil, List.singleton_append, this]
    rfl

theorem launches_ok_head (t d : Nat) (c : Cmd) (r : ProcResult) (L : List Event) :
    launches ([Event.buildingStd, Event.invoke t c r, Event.builtStd, Event.sleep d] ++ L)
      = (t, c, r) :: launches L := by
  simp [launches]

theorem launches_fail_head (t : Nat) (c : Cmd) (r : ProcResult) (e : ExecError) :
    launches ([Event.buildingStd, Event.invoke t c r] ++ outputEvents r ++ [Event.fatalStd e])
      = [(t, c, r)] := by
  rcases outputEvents_cases r with h | h <;> simp [h, launches]

theorem launches_outputEvents (r : ProcResult) : launches (outputEvents r) = [] := by
  rcases outputEvents_cases r with h | h <;> simp [h, launches]

theorem pkgLines_outputEvents (r : ProcResult) : pkgLines (outputEvents r) = [] := by
  rcases outputEvents_cases r with h | h <;> simp [h, pkgLines]

theorem exists_error_of_ne (r : ProcResult) (h : r.status ≠ ProcStatus.exited 0) :
    ∃ e, (CombinedOutput r).2 = some e := by
  rcases hc : (CombinedOutput r).2 with _ | e
  · exact absurd ((combinedOutput_none_iff r).1 hc) h
  · exact ⟨e, rfl⟩

theorem count_loopTrace (cfg : Config) (catalog : List String) (now k : Nat) :
    (successLines (loopTrace cfg now k catalog)).length
      + (failureLines (loopTrace cfg now k catalog)).length = catalog.length := by
  induction catalog generalizing now k with
  | nil => simp [loopTrace, successLines, failureLines]
  | cons p ps ih =>
    have := ih (now + (cfg.exec k (pkgCmd cfg now p)).elapsed + 100 * Millisecond) (k + 1)
    simp only [loopTrace, successLines_append, failureLines_append, successLines_pkgBlock,
      failureLines_pkgBlock, List.length_append, List.length_cons]
    rcases h : (CombinedOutput (cfg.exec k (pkgCmd cfg now p))).2 with _ | e
    · simp; omega
    · simp; omega

theorem starts_loopTrace (cfg : Config) (catalog : List String) (now k : Nat) :
    (∀ a, (launches (loopTrace cfg now k catalog))[0]? = some a → a.1 = now)
      ∧ ∀ i a b, (launches (loopTrace cfg now k catalog))[i]? = some a
          → (launches (loopTrace cfg now k catalog))[i + 1]? = some b
          → b.1 = a.1 + a.2.2.elapsed + 100 * Millisecond := by
  induction catalog generalizing now k with
  | nil => simp [loopTrace, launches]
  | cons p ps ih =>
    obtain ⟨ih0, ih1⟩ :=
      ih (now + (cfg.exec k (pkgCmd cfg now p)).elapsed + 100 * Millisecond) (k + 1)
    simp only [loopTrace, launches_append, launches_pkgBlock, List.singleton_append]
    refine ⟨?_, ?_⟩
    · intro a ha
      simp only [List.getElem?_cons_zero, Option.some.injEq] at ha
      subst ha
      rfl
    · intro i a b ha hb
      simp only [List.getElem?_cons_succ] at hb
      cases i with
      | zero =>
        simp only [List.getElem?_cons_zero, Option.some.injEq] at ha
        subst ha
        exact ih0 b hb
      | succ j =>
        simp only [List.getElem?_cons_succ] at ha
        exact ih1 j a b ha hb

theorem buildingLines_ok_head (t d : Nat) (c : Cmd) (r : ProcResult) (L : List Event) :
    buildingLines ([Event.buildingStd, Event.invoke t c r, Event.builtStd, Event.sleep d] ++ L)
      = buildingLines L := by
  simp [buildingLines]

theorem successLines_ok_head (t d : Nat) (c : Cmd) (r : ProcResult) (L : List Event) :
    successLines ([Event.buildingStd, Event.invoke t c r, Event.builtStd, Event.sleep d] ++ L)
      = successLines L := by
  simp [successLines]

theorem failureLines_ok_head (t d : Nat) (c : Cmd) (r : ProcResult) (L : List Event) :
    failureLines ([Event.buildingStd, Event.invoke t c r, Event.builtStd, Event.sleep d] ++ L)
      = failureLines L := by
  simp [failureLines]

theorem verdictLines_ok_head (t d : Nat) (c : Cmd) (r : ProcResult) (L : List Event) :
    verdictLines ([Event.buildingStd, Event.invoke t c r, Event.builtStd, Event.sleep d] ++ L)
      = verdictLines L := by
  simp [verdictLines]

theorem block_loopTrace (cfg : Config) (catalog : List String) (now k i : Nat)
    (hi : i < catalog.length) :
    ∃ pre post t,
      loopTrace cfg now k catalog
          = pre ++ pkgBlock catalog[i] t (pkgCmd cfg t catalog[i])
              (cfg.exec (k + i) (pkgCmd cfg t catalog[i])) ++ post
        ∧ buildingLines pre = catalog.take i
        ∧ buildingLines post = catalog.drop (i + 1)
        ∧ (launches pre).length = i := by
  induction catalog generalizing now k i with
  | nil => simp at hi
  | cons p ps ih =>
    cases i with
    | zero =>
      refine ⟨[], loopTrace cfg (now + (cfg.exec k (pkgCmd cfg now p)).elapsed
        + 100 * Millisecond) (k + 1) ps, now, ?_, ?_, ?_, ?_⟩
      · simp [loopTrace]
      · simp [buildingLines]
      · simp [buildingLines_loopTrace]
      · simp [launches]
    | succ j =>
      have hj : j < ps.length := by simpa using hi
      obtain ⟨pre, post, t, h1, h2, h3, h4⟩ :=
        ih (now + (cfg.exec k (pkgCmd cfg now p)).elapsed + 100 * Millisecond) (k + 1) j hj
      refine ⟨pkgBlock p now (pkgCmd cfg now p) (cfg.exec k (pkgCmd cfg now p)) ++ pre,
        post, t, ?_, ?_, ?_, ?_⟩
      · have e : k + (j + 1) = k + 1 + j := by omega
        simp only [loopTrace, List.getElem_cons_succ, e]
        rw [h1]
        simp only [List.append_assoc]
      · simp [buildingLines_append, buildingLines_pkgBlock, h2]
      · simpa using h3
      · simp [launches_append, launches_pkgBlock, h4]

theorem task_main (cfg : Config) (catalog : List String) (t0 : Nat)
    (hboot : (cfg.exec 0 (stdCmd cfg t0)).status = ProcStatus.exited 0) :
    (invocations (mainWith cfg catalog t0).trace).map (fun c => (c.args, c.dir))
        = (["install", "-ldflags", cfg.ldflags, "-buildmode", "shared", "-linkshared", "-v",
              "std"], Join [cfg.goroot, "src"])
          :: catalog.map fun p =>
              (["install", "-ldflags", cfg.ldflags, "-buildmode", "shared", "-linkshared", "-v"],
                Join [cfg.goroot, "src", p]) := by
  rw [main_ok cfg catalog t0 hboot]
  have h := task_loopTrace cfg catalog
    (t0 + (cfg.exec 0 (stdCmd cfg t0)).elapsed + 2 * Second) 1
  simp only [invocations] at h ⊢
  simp only [launches_ok_head, List.map_cons, h]
  rfl

theorem dirs_main (cfg : Config) (catalog : List String) (t0 : Nat)
    (hboot : (cfg.exec 0 (stdCmd cfg t0)).status = ProcStatus.exited 0) :
    (invocations (mainWith cfg catalog t0).trace).map Cmd.dir
      = Join [cfg.goroot, "src"] :: catalog.map (fun p => Join [cfg.goroot, "src", p]) := by
  have h := congrArg (List.map Prod.snd) (task_main cfg catalog t0 hboot)
  simpa [List.map_map, Function.comp_def] using h

theorem dirs_main_fail (cfg : Config) (catalog : List String) (t0 : Nat)
    (hboot : (cfg.exec 0 (stdCmd cfg t0)).status ≠ ProcStatus.exited 0) :
    (invocations (mainWith cfg catalog t0).trace).map Cmd.dir = [Join [cfg.goroot, "src"]]
      ∧ buildingLines (mainWith cfg catalog t0).trace = [] := by
  obtain ⟨e, he⟩ := exists_error_of_ne _ hboot
  rw [main_fail cfg catalog t0 e he]
  refine ⟨?_, ?_⟩
  · simp only [invocations, launches_fail_head, List.map_cons, List.map_nil]
    rfl
  · rcases outputEvents_cases (cfg.exec 0 (stdCmd cfg t0)) with h | h <;>
      simp [h, buildingLines]

theorem buildingLines_main (cfg : Config) (catalog : List String) (t0 : Nat)
    (hboot : (cfg.exec 0 (stdCmd cfg t0)).status = ProcStatus.exited 0) :
    buildingLines (mainWith cfg catalog t0).trace = catalog := by
  rw [main_ok cfg catalog t0 hboot, buildingLines_ok_head, buildingLines_loopTrace]

set_option maxRecDepth 100000 in
theorem pkgOrder_nodup : pkgOrder.Nodup := by decide

set_option maxRecDepth 100000 in
theorem pkgOrder_plain : ∀ p ∈ pkgOrder, plain p = true := by decide

set_option maxRecDepth 100000 in
theorem commentedOut_plain : ∀ p ∈ commentedOut, plain p = true := by decide

set_option maxRecDepth 100000 in
theorem commentedOut_not_mem : ∀ p ∈ commentedOut, p ∉ pkgOrder := by decide

/-! ## the claims -/

/-- C1: when the bootstrap process exits with status zero, then for every
catalog and every behaviour of the world (every result of every task) the
commands launched by `main` are, in order, the bootstrap command followed by
the command of each catalog entry in catalog order: one per entry, none
missing, none repeated, none added. -/
theorem C1_invocations_in_catalog_order (cfg : Config) (catalog : List String) (t0 : Nat)
    (hboot : (cfg.exec 0 (stdCmd cfg t0)).status = ProcStatus.exited 0) :
    invocations (mainWith cfg catalog t0).trace
        = stdCmd cfg t0
          :: List.zipWith (pkgCmd cfg) (starts (mainWith cfg catalog t0).trace).tail catalog
      ∧ (invocations (mainWith cfg catalog t0).trace).length = catalog.length + 1
      ∧ (invocations (mainWith cfg catalog t0).trace).map (fun c => (c.args, c.dir))
        = (["install", "-ldflags", cfg.ldflags, "-buildmode", "shared", "-linkshared", "-v",
              "std"], Join [cfg.goroot, "src"])
          :: catalog.map fun p =>
              (["install", "-ldflags", cfg.ldflags, "-buildmode", "shared", "-linkshared", "-v"],
                Join [cfg.goroot, "src", p]) := by
  rw [main_ok cfg catalog t0 hboot]
  refine ⟨?_, ?_, ?_⟩
  · have h := invocations_loopTrace cfg catalog
      (t0 + (cfg.exec 0 (stdCmd cfg t0)).elapsed + 2 * Second) 1
    simp only [invocations, starts] at h ⊢
    simp only [launches_ok_head, List.map_cons, List.tail_cons, h]
  · have h := launches_loopTrace_length cfg catalog
      (t0 + (cfg.exec 0 (stdCmd cfg t0)).elapsed + 2 * Second) 1
    simp only [invocations]
    simp only [launches_ok_head, List.map_cons, List.length_cons, List.length_map, h]
  · have h := task_loopTrace cfg catalog
      (t0 + (cfg.exec 0 (stdCmd cfg t0)).elapsed + 2 * Second) 1
    simp only [invocations] at h ⊢
    simp only [launches_ok_head, List.map_cons, h]
    rfl

/-- C1 at a sample run: catalog a, b, c with the task of b failing. -/
theorem C1_invocations_in_catalog_order_witness :
    (demoCfg.exec 0 (stdCmd demoCfg 0)).status = ProcStatus.exited 0
      ∧ (invocations (mainWith demoCfg ["a", "b", "c"] 0).trace).map (fun c => (c.args, c.dir))
        = (["install", "-ldflags", "-X foo=bar", "-buildmode", "shared", "-linkshared", "-v",
              "std"], Join ["/usr/local/go", "src"])
          :: ["a", "b", "c"].map fun p =>
              (["install", "-ldflags", "-X foo=bar", "-buildmode", "shared", "-linkshared", "-v"],
                Join ["/usr/local/go", "src", p]) :=
  ⟨by decide, (C1_invocations_in_catalog_order demoCfg ["a", "b", "c"] 0 (by decide)).2.2⟩

/-- C2: when the bootstrap process does not exit with status zero (non-zero
exit, start failure, or killed at the deadline), then for every catalog the
only command launched is the bootstrap command, the process ends with exit
status 1, and none of the lines of the per-package loop is written: the trace
is the announcement, the launch, the captured output if any, and the fatal
line. -/
theorem C2_bootstrap_failure_is_fatal (cfg : Config) (catalog : List String) (t0 : Nat)
    (hboot : (cfg.exec 0 (stdCmd cfg t0)).status ≠ ProcStatus.exited 0) :
    invocations (mainWith cfg catalog t0).trace = [stdCmd cfg t0]
      ∧ (mainWith cfg catalog t0).exit = 1
      ∧ (mainWith cfg catalog t0).exit ≠ 0
      ∧ pkgLines (mainWith cfg catalog t0).trace = []
      ∧ ∃ e, (CombinedOutput (cfg.exec 0 (stdCmd cfg t0))).2 = some e
          ∧ (mainWith cfg catalog t0).trace
            = [Event.buildingStd, Event.invoke t0 (stdCmd cfg t0) (cfg.exec 0 (stdCmd cfg t0))]
              ++ outputEvents (cfg.exec 0 (stdCmd cfg t0)) ++ [Event.fatalStd e] := by
  obtain ⟨e, he⟩ := exists_error_of_ne _ hboot
  rw [main_fail cfg catalog t0 e he]
  refine ⟨?_, rfl, Nat.one_ne_zero, ?_, e, he, rfl⟩
  · simp only [invocations, launches_fail_head, List.map_cons, List.map_nil]
  · simp only [pkgLines_append, pkgLines_outputEvents]
    simp [pkgLines]

/-- C2 at a sample run: the bootstrap exits with status 1, over `pkgOrder`. -/
theorem C2_bootstrap_failure_is_fatal_witness :
    (failCfg.exec 0 (stdCmd failCfg 0)).status ≠ ProcStatus.exited 0
      ∧ invocations (mainWith failCfg pkgOrder 0).trace = [stdCmd failCfg 0]
      ∧ (mainWith failCfg pkgOrder 0).exit = 1 :=
  ⟨by decide, (C2_bootstrap_failure_is_fatal failCfg pkgOrder 0 (by decide)).1,
    (C2_bootstrap_failure_is_fatal failCfg pkgOrder 0 (by decide)).2.1⟩

/-- C3: for every linker-flags string L, the command `runinstall` launches has
the argument list install, -ldflags, L, -buildmode, shared, -linkshared, -v
followed by the extra arguments; and in every run of `main` the argument
lists of the commands launched are that list followed by std for the first
(the bootstrap) and that list alone for every later one (one per catalog
entry when the bootstrap succeeded, none otherwise). L is one element, at
index 2, right after -ldflags. -/
theorem C3_argument_list (cfg : Config) (catalog : List String) (t0 : Nat)
    (ctxt : Context) (extraargs : List String) (dir : String) (s : State) :
    (invocations (runinstall cfg ctxt extraargs dir s).2.trace).map Cmd.args
        = (invocations s.trace).map Cmd.args
          ++ [["install", "-ldflags", cfg.ldflags, "-buildmode", "shared", "-linkshared", "-v"]
                ++ extraargs]
      ∧ (invocations (mainWith cfg catalog t0).trace).map Cmd.args
        = (["install", "-ldflags", cfg.ldflags, "-buildmode", "shared", "-linkshared", "-v"]
              ++ ["std"])
          :: List.replicate
              (if (cfg.exec 0 (stdCmd cfg t0)).status = ProcStatus.exited 0
                then catalog.length else 0)
              (["install", "-ldflags", cfg.ldflags, "-buildmode", "shared", "-linkshared", "-v"]
                ++ [])
      ∧ ∀ c ∈ invocations (mainWith cfg catalog t0).trace,
          c.args[1]? = some "-ldflags" ∧ c.args[2]? = some cfg.ldflags
            ∧ c.args[3]? = some "-buildmode" := by
  have hmain : (invocations (mainWith cfg catalog t0).trace).map Cmd.args
        = (["install", "-ldflags", cfg.ldflags, "-buildmode", "shared", "-linkshared", "-v"]
              ++ ["std"])
          :: List.replicate
              (if (cfg.exec 0 (stdCmd cfg t0)).status = ProcStatus.exited 0
                then catalog.length else 0)
              (["install", "-ldflags", cfg.ldflags, "-buildmode", "shared", "-linkshared", "-v"]
                ++ []) := by
    by_cases hboot : (cfg.exec 0 (stdCmd cfg t0)).status = ProcStatus.exited 0
    · rw [main_ok cfg catalog t0 hboot, if_pos hboot]
      have h := args_loopTrace cfg catalog
        (t0 + (cfg.exec 0 (stdCmd cfg t0)).elapsed + 2 * Second) 1
      simp only [invocations] at h ⊢
      simp only [launches_ok_head, List.map_cons, h]
      rfl
    · obtain ⟨e, he⟩ := exists_error_of_ne _ hboot
      rw [main_fail cfg catalog t0 e he, if_neg hboot]
      simp only [invocations, launches_fail_head, List.map_cons, List.map_nil]
      rfl
  refine ⟨?_, hmain, ?_⟩
  · rw [runinstall_eq cfg ctxt extraargs dir s _ rfl]
    simp only [invocations]
    rw [← List.singleton_append, launches_append, launches_append, launches_outputEvents]
    simp [launches, installCmd]
  · intro c hc
    have hmem : c.args ∈ (invocations (mainWith cfg catalog t0).trace).map Cmd.args :=
      List.mem_map_of_mem _ hc
    rw [hmain] at hmem
    rcases List.mem_cons.1 hmem with h | h
    · rw [h]; simp
    · rw [List.eq_of_mem_replicate h]; simp

/-- C3 at the linker flags `-X foo=bar` of the specification, over catalog a,
b, c: the flags are one element of every argument list, right after -ldflags. -/
theorem C3_argument_list_witness :
    (invocations (mainWith demoCfg ["a", "b", "c"] 0).trace).map Cmd.args
      = (["install", "-ldflags", "-X foo=bar", "-buildmode", "shared", "-linkshared", "-v"]
            ++ ["std"])
        :: List.replicate 3
            (["install", "-ldflags", "-X foo=bar", "-buildmode", "shared", "-linkshared", "-v"]
              ++ []) :=
  (C3_argument_list demoCfg ["a", "b", "c"] 0 (WithTimeout 0 0) [] ""
    { now := 0, spawned := 0, trace := [] }).2.1

/-- C4: when the bootstrap process exits with status zero, then for every
catalog of n entries and every behaviour of the world, the run ends with exit
status zero, launches n commands after the bootstrap, writes one Building
package line per entry in catalog order, and writes for the i-th entry the
line Successfully Built when the i-th task returned no error and the line
Error building package (with the error) when it returned one; so the
successes and the failures add up to n. Every answer recorded in the trace is
the world's answer to that launch. -/
theorem C4_every_entry_attempted_and_reported (cfg : Config) (catalog : List String)
    (t0 : Nat) (hboot : (cfg.exec 0 (stdCmd cfg t0)).status = ProcStatus.exited 0) :
    (mainWith cfg catalog t0).exit = 0
      ∧ ((results (mainWith cfg catalog t0).trace).tail).length = catalog.length
      ∧ buildingLines (mainWith cfg catalog t0).trace = catalog
      ∧ verdictLines (mainWith cfg catalog t0).trace
          = List.zipWith verdict catalog (results (mainWith cfg catalog t0).trace).tail
      ∧ successLines (mainWith cfg catalog t0).trace
          = (List.zip catalog (results (mainWith cfg catalog t0).trace).tail).filterMap
              (fun x => if (CombinedOutput x.2).2 = none then some x.1 else none)
      ∧ failureLines (mainWith cfg catalog t0).trace
          = ((results (mainWith cfg catalog t0).trace).tail).filterMap
              (fun r => (CombinedOutput r).2)
      ∧ (successLines (mainWith cfg catalog t0).trace).length
          + (failureLines (mainWith cfg catalog t0).trace).length = catalog.length
      ∧ ∀ i x, (launches (mainWith cfg catalog t0).trace)[i]? = some x
          → x.2.2 = cfg.exec i x.2.1 := by
  rw [main_ok cfg catalog t0 hboot]
  simp only [results, launches_ok_head, buildingLines_ok_head, verdictLines_ok_head,
    successLines_ok_head, failureLines_ok_head, List.map_cons, List.tail_cons]
  refine ⟨trivial, ?_, buildingLines_loopTrace _ _ _ _, ?_, ?_, ?_, count_loopTrace _ _ _ _, ?_⟩
  · rw [List.length_map, launches_loopTrace_length]
  · exact verdictLines_loopTrace _ _ _ _
  · exact successLines_loopTrace _ _ _ _
  · exact failureLines_loopTrace _ _ _ _
  · intro i x hx
    cases i with
    | zero =>
      simp only [List.getElem?_cons_zero, Option.some.injEq] at hx
      subst hx
      rfl
    | succ j =>
      simp only [List.getElem?_cons_succ] at hx
      have := exec_loopTrace cfg catalog _ 1 j x hx
      rw [this, Nat.add_comm]

/-- C4 at the scenario of the specification: catalog a, b, c, the bootstrap
succeeds, the task of b fails: three launches after the bootstrap, two
successes and one failure logged, exit status zero. -/
theorem C4_every_entry_attempted_and_reported_witness :
    (demoCfg.exec 0 (stdCmd demoCfg 0)).status = ProcStatus.exited 0
      ∧ (mainWith demoCfg ["a", "b", "c"] 0).exit = 0
      ∧ buildingLines (mainWith demoCfg ["a", "b", "c"] 0).trace = ["a", "b", "c"]
      ∧ ((results (mainWith demoCfg ["a", "b", "c"] 0).trace).tail).length = 3
      ∧ successLines (mainWith demoCfg ["a", "b", "c"] 0).trace = ["a", "c"]
      ∧ failureLines (mainWith demoCfg ["a", "b", "c"] 0).trace = [ExecError.exitError 2] :=
  ⟨by decide,
    (C4_every_entry_attempted_and_reported demoCfg ["a", "b", "c"] 0 (by decide)).1,
    (C4_every_entry_attempted_and_reported demoCfg ["a", "b", "c"] 0 (by decide)).2.2.1,
    by decide, by decide, by decide⟩

/-- C5: for every working directory, extra-argument list, context and state,
`runinstall` returns exactly the error of `CombinedOutput`: nil if and only
if the process ran and exited with status zero, the exit error for a non-zero
status, the start error when the process could not be started, the kill
error when it was cancelled. It always returns: what it adds to the trace is
the launch and at most one output line, never the fatal line, and it launches
exactly one process. -/
theorem C5_runinstall_classifies (cfg : Config) (ctxt : Context) (extraargs : List String)
    (dir : String) (s : State) :
    (runinstall cfg ctxt extraargs dir s).1
        = (CombinedOutput (cfg.exec s.spawned (installCmd cfg ctxt extraargs dir))).2
      ∧ ((runinstall cfg ctxt extraargs dir s).1 = none
          ↔ (cfg.exec s.spawned (installCmd cfg ctxt extraargs dir)).status
              = ProcStatus.exited 0)
      ∧ (∀ code, (cfg.exec s.spawned (installCmd cfg ctxt extraargs dir)).status
              = ProcStatus.exited (code + 1)
          → (runinstall cfg ctxt extraargs dir s).1 = some (ExecError.exitError (code + 1)))
      ∧ (∀ msg, (cfg.exec s.spawned (installCmd cfg ctxt extraargs dir)).status
              = ProcStatus.startFailed msg
          → (runinstall cfg ctxt extraargs dir s).1 = some (ExecError.startError msg))
      ∧ ((cfg.exec s.spawned (installCmd cfg ctxt extraargs dir)).status = ProcStatus.cancelled
          → (runinstall cfg ctxt extraargs dir s).1 = some ExecError.killed)
      ∧ (runinstall cfg ctxt extraargs dir s).2.trace
          = s.trace ++ Event.invoke s.now (installCmd cfg ctxt extraargs dir)
                (cfg.exec s.spawned (installCmd cfg ctxt extraargs dir))
              :: outputEvents (cfg.exec s.spawned (installCmd cfg ctxt extraargs dir))
      ∧ (∀ e, Event.fatalStd e ∉
          Event.invoke s.now (installCmd cfg ctxt extraargs dir)
                (cfg.exec s.spawned (installCmd cfg ctxt extraargs dir))
              :: outputEvents (cfg.exec s.spawned (installCmd cfg ctxt extraargs dir)))
      ∧ (runinstall cfg ctxt extraargs dir s).2.spawned = s.spawned + 1 := by
  rw [runinstall_eq cfg ctxt extraargs dir s _ rfl]
  refine ⟨rfl, combinedOutput_none_iff _, ?_, ?_, ?_, rfl, ?_, rfl⟩
  · intro code h
    simp [CombinedOutput, h]
  · intro msg h
    simp [CombinedOutput, h]
  · intro h
    simp [CombinedOutput, h]
  · intro e
    rcases outputEvents_cases (cfg.exec s.spawned (installCmd cfg ctxt extraargs dir))
      with h | h <;> simp [h]

/-- C5 at sample inputs: a process that exits with status 2 and one that exits
with status 0. -/
theorem C5_runinstall_classifies_witness :
    (runinstall demoCfg (WithTimeout 0 (5 * Second)) [] "/usr/local/go/src/b"
        { now := 0, spawned := 2, trace := [] }).1 = some (ExecError.exitError 2)
      ∧ (runinstall demoCfg (WithTimeout 0 (5 * Second)) [] "/usr/local/go/src/a"
        { now := 0, spawned := 1, trace := [] }).1 = none :=
  ⟨(C5_runinstall_classifies demoCfg (WithTimeout 0 (5 * Second)) [] "/usr/local/go/src/b"
      { now := 0, spawned := 2, trace := [] }).2.2.1 1 (by decide),
    (C5_runinstall_classifies demoCfg (WithTimeout 0 (5 * Second)) [] "/usr/local/go/src/a"
      { now := 0, spawned := 1, trace := [] }).2.1.2 (by decide)⟩

/-- C6, as the code has it: when the bootstrap succeeded and the task of the
i-th catalog entry answered r, a failure with captured output o and error e,
then the trace has, in this order and next to each other, the Building
package line of that entry, the launch, the output line with o when o is not
empty (no output line when o is empty), the Error building package line with
e, and the pause; the Building package lines before this block are those of
the entries before i and the ones after it those of the entries after i. What
`trycompile` hands back to `main` for that task is the error e, without the
output. -/
theorem C6_failure_logged_output_then_error (cfg : Config) (catalog : List String) (t0 : Nat)
    (hboot : (cfg.exec 0 (stdCmd cfg t0)).status = ProcStatus.exited 0)
    (i : Nat) (hi : i < catalog.length) (r : ProcResult) (o : String) (e : ExecError)
    (hr : (results (mainWith cfg catalog t0).trace)[i + 1]? = some r)
    (hfail : CombinedOutput r = (o, some e)) :
    ∃ pre post t,
      (mainWith cfg catalog t0).trace
          = pre ++ [Event.buildingPkg catalog[i], Event.invoke t (pkgCmd cfg t catalog[i]) r]
              ++ (if o.length > 0 then [Event.output o] else [])
              ++ [Event.errorPkg e, Event.sleep (100 * Millisecond)] ++ post
        ∧ buildingLines pre = catalog.take i
        ∧ buildingLines post = catalog.drop (i + 1)
        ∧ r = cfg.exec (i + 1) (pkgCmd cfg t catalog[i])
        ∧ ∀ s : State, s.now = t → s.spawned = i + 1
            → (trycompile cfg catalog[i] s).1 = some e := by
  obtain ⟨pre, post, t, h1, h2, h3, h4⟩ := block_loopTrace cfg catalog
    (t0 + (cfg.exec 0 (stdCmd cfg t0)).elapsed + 2 * Second) 1 i hi
  rw [main_ok cfg catalog t0 hboot] at hr ⊢
  have e1 : 1 + i = i + 1 := by omega
  rw [e1] at h1
  have hr2 : r = cfg.exec (i + 1) (pkgCmd cfg t catalog[i]) := by
    simp only [results, launches_ok_head, List.map_cons, List.getElem?_cons_succ] at hr
    rw [h1] at hr
    simp only [launches_append, launches_pkgBlock, List.map_cons,
      List.map_append, List.map_nil, List.append_assoc, List.singleton_append] at hr
    rw [List.getElem?_append_right (by simp [h4])] at hr
    simp only [List.length_map, h4, Nat.sub_self, List.getElem?_cons_zero,
      Option.some.injEq] at hr
    exact hr.symm
  refine ⟨[Event.buildingStd, Event.invoke t0 (stdCmd cfg t0) (cfg.exec 0 (stdCmd cfg t0)),
      Event.builtStd, Event.sleep (2 * Second)] ++ pre, post, t, ?_, ?_, h3, hr2, ?_⟩
  · rw [h1, ← hr2]
    have ho : outputEvents r = if o.length > 0 then [Event.output o] else [] := by
      simp [outputEvents, hfail]
    have hv : verdict catalog[i] r = Event.errorPkg e := by
      simp [verdict, hfail]
    simp only [pkgBlock, ho, hv, List.append_assoc]
  · rw [buildingLines_ok_head, h2]
  · intro s hs hk
    unfold trycompile
    rw [runinstall_eq cfg _ [] _ s (pkgCmd cfg t catalog[i]) (by simp [pkgCmd, installCmd, hs])]
    rw [hk, ← hr2, hfail]

/-- C6 at a sample run: catalog a, b, c, where the task of b exits with status
2 after writing one line. -/
theorem C6_failure_logged_output_then_error_witness :
    (demoCfg.exec 0 (stdCmd demoCfg 0)).status = ProcStatus.exited 0
      ∧ (results (mainWith demoCfg ["a", "b", "c"] 0).trace)[1 + 1]?
          = some { out := "b.go:1:1: boom\n", status := ProcStatus.exited 2,
                   elapsed := 3 * Second }
      ∧ ∃ pre post t,
          (mainWith demoCfg ["a", "b", "c"] 0).trace
              = pre ++ [Event.buildingPkg "b", Event.invoke t (pkgCmd demoCfg t "b")
                    { out := "b.go:1:1: boom\n", status := ProcStatus.exited 2,
                      elapsed := 3 * Second }]
                  ++ (if "b.go:1:1: boom\n".length > 0 then [Event.output "b.go:1:1: boom\n"]
                      else [])
                  ++ [Event.errorPkg (ExecError.exitError 2), Event.sleep (100 * Millisecond)]
                  ++ post
            ∧ buildingLines pre = ["a"]
            ∧ buildingLines post = ["c"] :=
  ⟨by decide, by decide,
    (C6_failure_logged_output_then_error demoCfg ["a", "b", "c"] 0 (by decide) 1 (by decide)
        { out := "b.go:1:1: boom\n", status := ProcStatus.exited 2, elapsed := 3 * Second }
        "b.go:1:1: boom\n" (ExecError.exitError 2) (by decide) (by decide)).imp
      fun _ h => h.imp fun _ h => h.imp fun _ h => ⟨h.1, h.2.1, h.2.2.1⟩⟩

/-- C6 as stated fails: what the task runner hands back does not carry the
captured output. Two tasks that fail with the same exit status after writing
different output hand back the same value; and a task that fails without
output leaves no output line in the log. -/
theorem C6_counterexample :
    (trycompile (failingWith "boom\n") "unsafe" { now := 0, spawned := 1, trace := [] }).1
        = some (ExecError.exitError 1)
      ∧ (trycompile (failingWith "bang\n") "unsafe" { now := 0, spawned := 1, trace := [] }).1
        = some (ExecError.exitError 1)
      ∧ "boom\n" ≠ "bang\n"
      ∧ (mainWith (failingWith "") ["unsafe"] 0).trace
        = [Event.buildingStd,
            Event.invoke 0 (stdCmd (failingWith "") 0)
              { out := "", status := ProcStatus.exited 0, elapsed := Second },
            Event.builtStd, Event.sleep (2 * Second),
            Event.buildingPkg "unsafe",
            Event.invoke (3 * Second) (pkgCmd (failingWith "") (3 * Second) "unsafe")
              { out := "", status := ProcStatus.exited 1, elapsed := Second },
            Event.errorPkg (ExecError.exitError 1), Event.sleep (100 * Millisecond)] := by
  decide

/-- C7, as the code has it: for every value r of `GOROOT` (the empty string
included) the working directory of the bootstrap command is
`filepath.Join(r, "src")`, and when the bootstrap succeeded the working
directories of the later commands are `filepath.Join(r, "src", p)` for the
catalog entries p, in catalog order. -/
theorem C7_working_directories (cfg : Config) (catalog : List String) (t0 : Nat) :
    (invocations (mainWith cfg catalog t0).trace).head?.map Cmd.dir
        = some (Join [cfg.goroot, "src"])
      ∧ ((cfg.exec 0 (stdCmd cfg t0)).status = ProcStatus.exited 0
          → (invocations (mainWith cfg catalog t0).trace).map Cmd.dir
              = Join [cfg.goroot, "src"]
                :: catalog.map (fun p => Join [cfg.goroot, "src", p])) := by
  refine ⟨?_, ?_⟩
  · by_cases hboot : (cfg.exec 0 (stdCmd cfg t0)).status = ProcStatus.exited 0
    · rw [main_ok cfg catalog t0 hboot]
      simp only [invocations, launches_ok_head, List.map_cons, List.head?_cons, Option.map_some']
      rfl
    · obtain ⟨e, he⟩ := exists_error_of_ne _ hboot
      rw [main_fail cfg catalog t0 e he]
      simp only [invocations, launches_fail_head, List.map_cons, List.head?_cons,
        Option.map_some']
      rfl
  · intro hboot
    exact dirs_main cfg catalog t0 hboot

/-- C7 at a sample run, and at an empty `GOROOT`. -/
theorem C7_working_directories_witness :
    (demoCfg.exec 0 (stdCmd demoCfg 0)).status = ProcStatus.exited 0
      ∧ (invocations (mainWith demoCfg ["unsafe", "runtime/internal/sys"] 0).trace).map Cmd.dir
          = Join ["/usr/local/go", "src"]
            :: ["unsafe", "runtime/internal/sys"].map (fun p => Join ["/usr/local/go", "src", p])
      ∧ Join ["", "src"] = "src"
      ∧ Join ["", "src", "runtime/internal/sys"] = "src/runtime/internal/sys" :=
  ⟨by decide,
    (C7_working_directories demoCfg ["unsafe", "runtime/internal/sys"] 0).2 (by decide),
    by decide, by decide⟩

/-- C7 as stated fails: with `GOROOT` set to /usr/local/go the bootstrap runs
in /usr/local/go/src, not in /usr/local/go, and the task of `unsafe` runs in
/usr/local/go/src/unsafe, not in /usr/local/go/unsafe. -/
theorem C7_counterexample :
    (invocations (mainWith demoCfg ["unsafe"] 0).trace).map Cmd.dir
        = ["/usr/local/go/src", "/usr/local/go/src/unsafe"]
      ∧ demoCfg.goroot = "/usr/local/go"
      ∧ "/usr/local/go/src" ≠ demoCfg.goroot
      ∧ Join [demoCfg.goroot, "unsafe"] = "/usr/local/go/unsafe"
      ∧ "/usr/local/go/src/unsafe" ≠ Join [demoCfg.goroot, "unsafe"] := by
  decide

/-- C8: in every run, the first launch is the bootstrap command, launched at
the start of the run with a deadline 60 seconds after its launch; every later
launch (one per catalog entry when the bootstrap succeeded) has a deadline 5
seconds after its own launch, whatever the position, and whatever time and
results the earlier tasks had: the first package task is launched when the
bootstrap has finished and 2 seconds have passed, each later one when its
predecessor has finished and 100 milliseconds have passed. -/
theorem C8_fresh_deadline_per_task (cfg : Config) (catalog : List String) (t0 : Nat) :
    (launches (mainWith cfg catalog t0).trace).head?
        = some (t0, stdCmd cfg t0, cfg.exec 0 (stdCmd cfg t0))
      ∧ (stdCmd cfg t0).ctx.deadline = t0 + 60 * Second
      ∧ (∀ x ∈ (launches (mainWith cfg catalog t0).trace).tail,
          x.2.1.ctx.deadline = x.1 + 5 * Second)
      ∧ ((launches (mainWith cfg catalog t0).trace).tail).length
          = (if (cfg.exec 0 (stdCmd cfg t0)).status = ProcStatus.exited 0
              then catalog.length else 0)
      ∧ (∀ b, (launches (mainWith cfg catalog t0).trace)[1]? = some b
          → b.1 = t0 + (cfg.exec 0 (stdCmd cfg t0)).elapsed + 2 * Second)
      ∧ ∀ i a b, (launches (mainWith cfg catalog t0).trace)[i + 1]? = some a
          → (launches (mainWith cfg catalog t0).trace)[i + 2]? = some b
          → b.1 = a.1 + a.2.2.elapsed + 100 * Millisecond := by
  by_cases hboot : (cfg.exec 0 (stdCmd cfg t0)).status = ProcStatus.exited 0
  · rw [main_ok cfg catalog t0 hboot, if_pos hboot]
    simp only [launches_ok_head, List.head?_cons, List.tail_cons, List.getElem?_cons_succ]
    obtain ⟨h0, h1⟩ := starts_loopTrace cfg catalog
      (t0 + (cfg.exec 0 (stdCmd cfg t0)).elapsed + 2 * Second) 1
    refine ⟨trivial, ?_, deadline_loopTrace _ _ _ _, launches_loopTrace_length _ _ _ _, h0, h1⟩
    simp [stdCmd, WithTimeout, Minute]
  · obtain ⟨e, he⟩ := exists_error_of_ne _ hboot
    rw [main_fail cfg catalog t0 e he, if_neg hboot]
    simp only [launches_fail_head]
    refine ⟨rfl, ?_, ?_, rfl, ?_, ?_⟩
    · simp [stdCmd, WithTimeout, Minute]
    · simp
    · simp
    · simp

/-- C8 at a sample run: catalog a, b, c, where the tasks take 1, 3 and 1
seconds: the deadlines are 60 and 5 seconds after each launch. -/
theorem C8_fresh_deadline_per_task_witness :
    (launches (mainWith demoCfg ["a", "b", "c"] 0).trace).map
        (fun x => (x.1, x.2.1.ctx.deadline))
      = [(0, 60 * Second), (3 * Second, 8 * Second),
          (4 * Second + 100 * Millisecond, 9 * Second + 100 * Millisecond),
          (7 * Second + 200 * Millisecond, 12 * Second + 200 * Millisecond)]
      ∧ ∀ x ∈ (launches (mainWith demoCfg ["a", "b", "c"] 0).trace).tail,
          x.2.1.ctx.deadline = x.1 + 5 * Second :=
  ⟨by decide, (C8_fresh_deadline_per_task demoCfg ["a", "b", "c"] 0).2.2.1⟩

/-- C9: no identifier occurs twice in `pkgOrder`: entries at different
positions are different. Hence in a run whose bootstrap succeeds the
Building package lines name each entry of `pkgOrder` once, and no two
commands of the run have the same working directory, whatever `GOROOT` is:
no package is built twice. -/
theorem C9_catalog_entries_unique :
    pkgOrder.Nodup
      ∧ (∀ (i j : Nat) (hi : i < pkgOrder.length) (hj : j < pkgOrder.length),
          i ≠ j → pkgOrder[i] ≠ pkgOrder[j])
      ∧ ∀ (cfg : Config) (t0 : Nat),
          (cfg.exec 0 (stdCmd cfg t0)).status = ProcStatus.exited 0
          → buildingLines (main cfg t0).trace = pkgOrder
            ∧ (buildingLines (main cfg t0).trace).Nodup
            ∧ ((invocations (main cfg t0).trace).map Cmd.dir).Nodup := by
  refine ⟨pkgOrder_nodup, ?_, ?_⟩
  · intro i j hi hj hij h
    exact hij ((List.Nodup.getElem_inj_iff pkgOrder_nodup).1 h)
  · intro cfg t0 hboot
    unfold main
    rw [buildingLines_main cfg pkgOrder t0 hboot, dirs_main cfg pkgOrder t0 hboot]
    refine ⟨rfl, pkgOrder_nodup, List.nodup_cons.2 ⟨?_, ?_⟩⟩
    · intro hmem
      obtain ⟨p, hp, hpe⟩ := List.mem_map.1 hmem
      exact Join_src_ne cfg.goroot p (pkgOrder_plain p hp) hpe.symm
    · exact List.Nodup.map_on
        (fun p hp q hq h =>
          Join_src_inj cfg.goroot p q (pkgOrder_plain p hp) (pkgOrder_plain q hq) h)
        pkgOrder_nodup

/-- C9 at a sample run over `pkgOrder`. -/
theorem C9_catalog_entries_unique_witness :
    (demoCfg.exec 0 (stdCmd demoCfg 0)).status = ProcStatus.exited 0
      ∧ buildingLines (main demoCfg 0).trace = pkgOrder
      ∧ ((invocations (main demoCfg 0).trace).map Cmd.dir).Nodup :=
  ⟨by decide, (C9_catalog_entries_unique.2.2 demoCfg 0 (by decide)).1,
    (C9_catalog_entries_unique.2.2 demoCfg 0 (by decide)).2.2⟩

/-- C10, as the code has it: none of the sixteen identifiers that the source
turns into comments is an entry of `pkgOrder`, and no run announces one of
them or launches a command in its directory; the two identifiers annotated
Panic in linker, log/syslog and crypto/ecdsa, are entries of `pkgOrder`, and
every run whose bootstrap succeeds announces each of them and launches a
command in its directory. -/
theorem C10_commented_entries_are_skipped :
    (∀ p ∈ commentedOut, p ∉ pkgOrder)
      ∧ (∀ p ∈ linkerPanic, p ∈ pkgOrder)
      ∧ ∀ (cfg : Config) (t0 : Nat),
          (∀ p ∈ commentedOut,
            p ∉ buildingLines (main cfg t0).trace
              ∧ Join [cfg.goroot, "src", p] ∉ (invocations (main cfg t0).trace).map Cmd.dir)
          ∧ ((cfg.exec 0 (stdCmd cfg t0)).status = ProcStatus.exited 0
              → ∀ p ∈ linkerPanic,
                  p ∈ buildingLines (main cfg t0).trace
                    ∧ Join [cfg.goroot, "src", p]
                        ∈ (invocations (main cfg t0).trace).map Cmd.dir) := by
  have hpanic : ∀ p ∈ linkerPanic, p ∈ pkgOrder := by decide
  refine ⟨commentedOut_not_mem, hpanic, ?_⟩
  intro cfg t0
  unfold main
  refine ⟨?_, ?_⟩
  · intro p hp
    by_cases hboot : (cfg.exec 0 (stdCmd cfg t0)).status = ProcStatus.exited 0
    · rw [buildingLines_main cfg pkgOrder t0 hboot, dirs_main cfg pkgOrder t0 hboot]
      refine ⟨commentedOut_not_mem p hp, ?_⟩
      intro hmem
      rcases List.mem_cons.1 hmem with h | h
      · exact Join_src_ne cfg.goroot p (commentedOut_plain p hp) h.symm
      · obtain ⟨q, hq, hqe⟩ := List.mem_map.1 h
        have := Join_src_inj cfg.goroot q p (pkgOrder_plain q hq) (commentedOut_plain p hp) hqe
        exact commentedOut_not_mem p hp (this ▸ hq)
    · obtain ⟨h1, h2⟩ := dirs_main_fail cfg pkgOrder t0 hboot
      rw [h1, h2]
      refine ⟨by simp, ?_⟩
      intro hmem
      exact Join_src_ne cfg.goroot p (commentedOut_plain p hp) (List.mem_singleton.1 hmem).symm
  · intro hboot p hp
    rw [buildingLines_main cfg pkgOrder t0 hboot, dirs_main cfg pkgOrder t0 hboot]
    exact ⟨hpanic p hp, List.mem_cons_of_mem _ (List.mem_map_of_mem _ (hpanic p hp))⟩

/-- C10 at a sample run over `pkgOrder`. -/
theorem C10_commented_entries_are_skipped_witness :
    (demoCfg.exec 0 (stdCmd demoCfg 0)).status = ProcStatus.exited 0
      ∧ "crypto/tls" ∉ buildingLines (main demoCfg 0).trace
      ∧ "log/syslog" ∈ buildingLines (main demoCfg 0).trace :=
  ⟨by decide,
    ((C10_commented_entries_are_skipped.2.2 demoCfg 0).1 "crypto/tls" (by decide)).1,
    ((C10_commented_entries_are_skipped.2.2 demoCfg 0).2 (by decide) "log/syslog"
      (by decide)).1⟩

set_option maxRecDepth 100000 in
/-- C10 as stated fails: the two identifiers annotated Panic in linker are
entries of `pkgOrder`, at positions 123 and 135. -/
theorem C10_counterexample :
    "log/syslog" ∈ pkgOrder ∧ "crypto/ecdsa" ∈ pkgOrder
      ∧ pkgOrder[123]? = some "log/syslog" ∧ pkgOrder[135]? = some "crypto/ecdsa" := by
  decide

end DynLib
